import Mathlib

/-!
Verification development for the kids-video-hub repository.

The definitions below are a shallow embedding of the server core:
the URL classifier from shared/schema.ts and the DatabaseStorage
operations (kids, folders, videos, progress, global-playlist sync).
The persistent store is modelled as lists of rows; drizzle selects
become list filters, inserts become appends, updates become maps,
deletes become filters.  JavaScript objects used as kid-id keyed maps
(assigned, progress, dailyWatchTime) are modelled as association lists
with JavaScript object semantics: lookup of the key, in-place value
replacement for an existing key, append for a new key.  JavaScript
numbers holding seconds, priorities and counters are modelled as Int.
Timestamps and date keys are opaque strings supplied by the caller
(the clock is an external collaborator).  Fresh identifiers
(Date.now plus randomUUID in the source) are nondeterministic, so the
operations that allocate ids take them as parameters.

The URL parser models the WHATWG URL constructor for the
scheme://authority/path?query shapes the classifier handles: it
validates the scheme, extracts the host (after the last at sign,
before a port colon, ASCII-lowercased), the pathname and the query
string.  Percent-decoding, path-segment normalisation and IPv6 hosts
are not modelled; no claim depends on them.
-/

set_option maxHeartbeats 1000000

namespace KidsVideoHub

/-! ## Character-list string helpers (JavaScript string primitives) -/

/-- JavaScript whitespace test used by String.prototype.trim (ASCII part). -/
def isJsSpace (c : Char) : Bool :=
  c == ' ' || c == '\t' || c == '\n' || c == '\r' || c == '\x0c' || c == '\x0b'

/-- Model of String.prototype.trim. -/
def trimL (l : List Char) : List Char :=
  ((l.dropWhile isJsSpace).reverse.dropWhile isJsSpace).reverse

/-- Tests whether pat is a leading segment of l. -/
def listStartsWith : List Char → List Char → Bool
  | [], _ => true
  | _ :: _, [] => false
  | p :: ps, c :: cs => p == c && listStartsWith ps cs

/-- Model of String.prototype.includes: substring containment. -/
def strContainsL (pat : List Char) : List Char → Bool
  | [] => listStartsWith pat []
  | c :: cs => listStartsWith pat (c :: cs) || strContainsL pat cs

/-- Model of String.prototype.replace with a string pattern and empty
replacement: removes the first occurrence of pat. -/
def replaceFirstL (pat : List Char) : List Char → List Char
  | [] => []
  | c :: cs =>
    if listStartsWith pat (c :: cs) then (c :: cs).drop pat.length
    else c :: replaceFirstL pat cs

/-- Splits at the first occurrence of c, dropping it; none when absent. -/
def splitAtChar (c : Char) : List Char → Option (List Char × List Char)
  | [] => none
  | x :: xs =>
    if x == c then some ([], xs)
    else (splitAtChar c xs).map (fun p => (x :: p.1, p.2))

/-- Model of String.prototype.split with a one-character separator. -/
def splitChar (sep : Char) : List Char → List (List Char)
  | [] => [[]]
  | c :: cs =>
    let r := splitChar sep cs
    if c == sep then [] :: r
    else
      match r with
      | h :: t => (c :: h) :: t
      | [] => [[c]]

/-- The part of l after the last at sign (the whole of l when absent). -/
def afterLastAt (l : List Char) : List Char :=
  ((l.reverse.takeWhile (fun c => c != '@')).reverse)

/-- Model of the regular expression test for one or more digits. -/
def isNumericStr (s : String) : Bool :=
  !s.toList.isEmpty && s.toList.all Char.isDigit

/-- String containment lifted to String. -/
def strContains (pat s : String) : Bool :=
  strContainsL pat.toList s.toList

/-- String trim lifted to String. -/
def jsTrim (s : String) : String :=
  String.mk (trimL s.toList)

/-! ## Association lists with JavaScript object semantics -/

/-- Object property read: obj[k], none when the key is absent. -/
def alGet {α : Type} (k : String) (l : List (String × α)) : Option α :=
  (l.find? (fun p => p.1 == k)).map (fun p => p.2)

/-- Object property write: obj[k] = v.  An existing key keeps its
position and gets the new value; a new key is appended. -/
def alPut {α : Type} (k : String) (v : α) : List (String × α) → List (String × α)
  | [] => [(k, v)]
  | (k', v') :: rest =>
    if k' == k then (k', v) :: rest else (k', v') :: alPut k v rest

/-! ## URL classifier (shared/schema.ts) -/

/-- Video platforms supported by the classifier. -/
inductive Platform where
  | youtube
  | tiktok
  deriving DecidableEq, Repr

/-- Result of parsing a URL: lowercased hostname, pathname with its
leading slash, and the query string without its leading question mark. -/
structure UrlParts where
  host : String
  pathname : String
  search : String
  deriving DecidableEq, Repr

/-- Scheme validity: a letter followed by letters, digits, plus,
minus or dot. -/
def validScheme : List Char → Bool
  | [] => false
  | c :: cs => c.isAlpha && cs.all (fun d => d.isAlphanum || d == '+' || d == '-' || d == '.')

/-- Model of the WHATWG URL constructor for scheme://authority/path?query
inputs; none models the constructor throwing. -/
def parseUrl (raw : String) : Option UrlParts :=
  match splitAtChar ':' raw.toList with
  | none => none
  | some (schemeCs, rest) =>
    if validScheme schemeCs then
      match rest with
      | '/' :: '/' :: rest2 =>
        let authority := rest2.takeWhile (fun c => c != '/' && c != '?' && c != '#')
        let after := rest2.drop authority.length
        let hostPort := afterLastAt authority
        let hostCs := hostPort.takeWhile (fun c => c != ':')
        if hostCs.isEmpty then none
        else
          let pathCs := after.takeWhile (fun c => c != '?' && c != '#')
          let restQ := after.drop pathCs.length
          let searchCs :=
            match restQ with
            | '?' :: q => q.takeWhile (fun c => c != '#')
            | _ => []
          some { host := String.mk (hostCs.map Char.toLower),
                 pathname := if pathCs.isEmpty then "/" else String.mk pathCs,
                 search := String.mk searchCs }
      | _ => none
    else none

/-- The host normalisation both extractors apply:
hostname.replace("www.", "").toLowerCase(). -/
def hostAfterWWW (h : String) : String :=
  String.mk ((replaceFirstL "www.".toList h.toList).map Char.toLower)

/-- pathname.split("/").filter(Boolean). -/
def pathSegs (p : String) : List String :=
  ((splitChar '/' p.toList).filter (fun l => !l.isEmpty)).map String.mk

/-- Model of URLSearchParams.get: first pair with the given key; a key
with no equals sign has the empty value. -/
def searchGet (key : String) (search : String) : Option String :=
  if search.toList.isEmpty then none
  else
    (splitChar '&' search.toList).findSome? (fun pr =>
      match splitAtChar '=' pr with
      | some (k, v) => if k == key.toList then some (String.mk v) else none
      | none => if pr == key.toList then some "" else none)

/-- Model of Array.prototype.indexOf: the index of the first match. -/
def findIdxL {α : Type} (p : α → Bool) : List α → Option Nat
  | [] => none
  | a :: l => if p a then some 0 else (findIdxL p l).map (fun n => n + 1)

/-- The shorts and embed path fallback inside the youtube.com branch. -/
def ytShortsEmbed (parts : List String) : Option String :=
  match parts with
  | p0 :: p1 :: _ => if p0 == "shorts" || p0 == "embed" then some p1 else none
  | _ => none

/-- The body of getYouTubeId on a successfully parsed URL. -/
def getYouTubeIdParts (u : UrlParts) : Option String :=
  if hostAfterWWW u.host == "youtu.be" then (pathSegs u.pathname).head?
  else if strContains "youtube.com" (hostAfterWWW u.host) then
    match searchGet "v" u.search with
    | some v => if !v.isEmpty then some v else ytShortsEmbed (pathSegs u.pathname)
    | none => ytShortsEmbed (pathSegs u.pathname)
  else none

/-- getYouTubeId from shared/schema.ts. -/
def getYouTubeId (url : String) : Option String :=
  match parseUrl (jsTrim url) with
  | none => none
  | some u => getYouTubeIdParts u

/-- The body of getTikTokId on a successfully parsed URL. -/
def getTikTokIdParts (u : UrlParts) : Option String :=
  if hostAfterWWW u.host == "tiktok.com" || hostAfterWWW u.host == "m.tiktok.com" then
    match findIdxL (fun s => s == "video") (pathSegs u.pathname) with
    | some i =>
      match ((pathSegs u.pathname).drop (i + 1)).head? with
      | some vid => if isNumericStr vid then some vid else none
      | none => none
    | none => none
  else none

/-- getTikTokId from shared/schema.ts. -/
def getTikTokId (url : String) : Option String :=
  match parseUrl (jsTrim url) with
  | none => none
  | some u => getTikTokIdParts u

/-- getVideoInfo from shared/schema.ts: YouTube rules first, then TikTok. -/
def getVideoInfo (url : String) : Option (Platform × String) :=
  match getYouTubeId url with
  | some i => some (Platform.youtube, i)
  | none =>
    match getTikTokId url with
    | some i => some (Platform.tiktok, i)
    | none => none

/-- isTikTokShortUrl from the routes file: vm.tiktok.com, or tiktok.com
with a pathname starting with /t/.  The source does not trim here. -/
def isTikTokShortUrl (url : String) : Bool :=
  match parseUrl url with
  | none => false
  | some u =>
    let host := hostAfterWWW u.host
    host == "vm.tiktok.com" || (host == "tiktok.com" && listStartsWith "/t/".toList u.pathname.toList)

/-! ## Data model (shared/schema.ts tables) -/

/-- A voice recording attached to a completion. -/
structure VoiceRecording where
  recordedAt : String
  duration : Int
  audioData : Option String
  deriving DecidableEq, Repr

/-- Per-kid progress on a video (videoProgressSchema). -/
structure VideoProgress where
  watched : Bool
  watchedAt : Option String
  voiceRecording : Option VoiceRecording
  voiceRecordings : Option (List VoiceRecording)
  parentReviewed : Option Bool
  lastPosition : Option Int
  videoDuration : Option Int
  dailyWatchTime : Option (List (String × Int))
  deriving DecidableEq, Repr

/-- The fresh progress entry the code writes for a newly assigned kid. -/
def freshProgress : VideoProgress :=
  { watched := false, watchedAt := none, voiceRecording := none,
    voiceRecordings := none, parentReviewed := none, lastPosition := none,
    videoDuration := none, dailyWatchTime := none }

/-- A row of the kids table. -/
structure KidRow where
  id : String
  userId : String
  name : String
  avatar : String
  deriving DecidableEq, Repr

/-- A row of the folders table. -/
structure FolderRow where
  id : String
  userId : String
  name : String
  deriving DecidableEq, Repr

/-- A row of the videos table. -/
structure VideoRow where
  id : String
  userId : String
  url : String
  ytId : String
  platform : Platform
  folderId : Option String
  priority : Int
  assigned : List (String × Bool)
  progress : List (String × VideoProgress)
  totalViews : Int
  deriving DecidableEq, Repr

/-- A row of the global_subscriptions table. -/
structure SubRow where
  id : String
  userId : String
  masterFolderId : String
  kidIds : List String
  deriving DecidableEq, Repr

/-- The persistent store. -/
structure DB where
  kids : List KidRow
  folders : List FolderRow
  videos : List VideoRow
  subs : List SubRow
  deriving DecidableEq, Repr

/-! ## Storage operations (DatabaseStorage) -/

/-- getKids: select kids where userId matches. -/
def getKids (userId : String) (db : DB) : List KidRow :=
  db.kids.filter (fun k => k.userId == userId)

/-- getFolder: select a folder by id within the owner scope. -/
def getFolder (id userId : String) (db : DB) : Option FolderRow :=
  (db.folders.filter (fun f => f.id == id && f.userId == userId)).head?

/-- getVideo: select a video by id within the owner scope. -/
def getVideo (id userId : String) (db : DB) : Option VideoRow :=
  (db.videos.filter (fun v => v.id == id && v.userId == userId)).head?

/-- deleteKid: deletes the kid row matching id and owner, and nothing
else; always reports success. -/
def deleteKid (id userId : String) (db : DB) : Bool × DB :=
  (true, { db with kids := db.kids.filter (fun k => !(k.id == id && k.userId == userId)) })

/-- deleteVideo: deletes the matching video row; always reports success. -/
def deleteVideo (id userId : String) (db : DB) : Bool × DB :=
  (true, { db with videos := db.videos.filter (fun v => !(v.id == id && v.userId == userId)) })

/-- deleteFolder: nulls folderId on the owner videos referencing the
folder, then deletes the folder row; always reports success. -/
def deleteFolder (id userId : String) (db : DB) : Bool × DB :=
  (true,
    { db with
      videos := db.videos.map (fun v =>
        if v.folderId == some id && v.userId == userId then { v with folderId := none } else v),
      folders := db.folders.filter (fun f => !(f.id == id && f.userId == userId)) })

/-- updateFolder restricted to the rename the PATCH route performs: the
new name is written unchecked whenever the folder exists in the owner
scope. -/
def updateFolder (id userId name : String) (db : DB) : Option FolderRow × DB :=
  match getFolder id userId db with
  | none => (none, db)
  | some f =>
    (some { f with name := name },
      { db with folders := db.folders.map (fun fr =>
          if fr.id == id && fr.userId == userId then { fr with name := name } else fr) })

/-- The kid-set resolution shared by createVideo and syncSubscription:
explicit non-empty kid ids are intersected with the actual kids,
otherwise all kids are targeted. -/
def resolveTargetKids (kidIds : Option (List String)) (allKids : List KidRow) : List KidRow :=
  match kidIds with
  | some ks => if !ks.isEmpty then allKids.filter (fun k => ks.contains k.id) else allKids
  | none => allKids

/-- Builds the assigned map the creation paths write. -/
def assignAll (targetKids : List KidRow) : List (String × Bool) :=
  targetKids.foldl (fun m k => alPut k.id true m) []

/-- Builds the progress map the creation paths write. -/
def progressAll (targetKids : List KidRow) : List (String × VideoProgress) :=
  targetKids.foldl (fun m k => alPut k.id freshProgress m) []

/-- Error text for an unclassifiable URL. -/
def invalidUrlError : String :=
  "Invalid video URL. Please paste a valid YouTube or TikTok link."

/-- Error text for the per-owner duplicate check. -/
def duplicateVideoError : String :=
  "This video has already been added to your library."

/-- createVideo: classify, dedup on ytId within the owner, resolve the
target kid set, insert.  The fresh row id is a parameter. -/
def createVideo (url : String) (kidIds : Option (List String)) (allKids : List KidRow)
    (userId : String) (folderId : Option String) (priority : Option Int)
    (fresh : String) (db : DB) : Except String VideoRow × DB :=
  match getVideoInfo url with
  | none => (Except.error invalidUrlError, db)
  | some info =>
    let existing := db.videos.filter (fun v => v.ytId == info.2 && v.userId == userId)
    if !existing.isEmpty then (Except.error duplicateVideoError, db)
    else
      let targetKids := resolveTargetKids kidIds allKids
      let fid := match folderId with
        | some s => if s.isEmpty then none else some s
        | none => none
      let row : VideoRow :=
        { id := fresh, userId := userId, url := url, ytId := info.2,
          platform := info.1, folderId := fid, priority := priority.getD 5,
          assigned := assignAll targetKids, progress := progressAll targetKids,
          totalViews := 0 }
      (Except.ok row, { db with videos := db.videos ++ [row] })

/-- Error text for a missing video. -/
def videoNotFoundError : String := "Video not found"

/-- Error text for the view cap. -/
def maxViewsError : String := "This video has reached the maximum number of views (4)"

/-- MAX_VIDEO_VIEWS from shared/schema.ts. -/
def MAX_VIDEO_VIEWS : Int := 4

/-- markVideoWatched: cap check for first completions, legacy
single-recording migration, recording append, progress rewrite and
conditional counter increment.  The timestamp is a parameter. -/
def markVideoWatched (videoId kidId : String) (rec : VoiceRecording)
    (userId now : String) (db : DB) : Except String VideoRow × DB :=
  match getVideo videoId userId db with
  | none => (Except.error videoNotFoundError, db)
  | some v =>
    let alreadyWatched := ((alGet kidId v.progress).map (fun p => p.watched)).getD false
    if !alreadyWatched && decide (v.totalViews ≥ MAX_VIDEO_VIEWS) then
      (Except.error maxViewsError, db)
    else
      let existing0 := ((alGet kidId v.progress).bind (fun p => p.voiceRecordings)).getD []
      let withLegacy :=
        match (alGet kidId v.progress).bind (fun p => p.voiceRecording) with
        | some l => if existing0.isEmpty then existing0 ++ [l] else existing0
        | none => existing0
      let recs := withLegacy ++ [rec]
      let newP : VideoProgress :=
        { watched := true,
          watchedAt := some (((alGet kidId v.progress).bind (fun p => p.watchedAt)).getD now),
          voiceRecording := none, voiceRecordings := some recs,
          parentReviewed := some false, lastPosition := none,
          videoDuration := none, dailyWatchTime := none }
      let newProgress := alPut kidId newP v.progress
      let newViews := if !alreadyWatched then v.totalViews + 1 else v.totalViews
      let v' := { v with progress := newProgress, totalViews := newViews }
      (Except.ok v',
        { db with videos := db.videos.map (fun w =>
            if w.id == videoId && w.userId == userId then
              { w with progress := newProgress, totalViews := newViews }
            else w) })

/-- The day-bucket accumulation step of saveVideoPosition: with the
increment max 0 (position - previous), the today bucket grows by the
increment only when it is strictly between 0 and 30 seconds; an absent
previous position reads as 0. -/
def savedDaily (p : VideoProgress) (position : Int) (today : String) : VideoProgress :=
  if 0 < max 0 (position - p.lastPosition.getD 0) ∧ max 0 (position - p.lastPosition.getD 0) < 30 then
    { p with dailyWatchTime := some (alPut today
        (((alGet today (p.dailyWatchTime.getD [])).getD 0) + max 0 (position - p.lastPosition.getD 0))
        (p.dailyWatchTime.getD [])) }
  else p

/-- The per-entry transformation saveVideoPosition applies: day-bucket
accumulation, then the unconditional lastPosition update, then the
videoDuration update for a positive supplied duration. -/
def savedProg (p : VideoProgress) (position : Int) (duration : Option Int)
    (today : String) : VideoProgress :=
  let p2 := { savedDaily p position today with lastPosition := some position }
  match duration with
  | some d => if 0 < d then { p2 with videoDuration := some d } else p2
  | none => p2

/-- saveVideoPosition: scrub tracking.  The day key is a parameter (the
clock is external).  A missing progress entry starts from the fresh
unwatched entry.  The final update filters on the video id only,
exactly as the source does. -/
def saveVideoPosition (videoId kidId : String) (position : Int) (userId : String)
    (duration : Option Int) (today : String) (db : DB) : Bool × DB :=
  match getVideo videoId userId db with
  | none => (false, db)
  | some v =>
    let p0 := (alGet kidId v.progress).getD freshProgress
    let newProgress := alPut kidId (savedProg p0 position duration today) v.progress
    (true,
      { db with videos := db.videos.map (fun w =>
          if w.id == videoId then { w with progress := newProgress } else w) })

/-! ## Global playlist sync (DatabaseStorage.syncSubscription) -/

/-- The reserved shadow-folder name for a master folder. -/
def shadowName (masterFolderId : String) : String :=
  "__global_" ++ masterFolderId

/-- Lookup of the subscription row for (userId, masterFolderId). -/
def subLookup (userId masterFolderId : String) (db : DB) : Option SubRow :=
  (db.subs.filter (fun s => s.userId == userId && s.masterFolderId == masterFolderId)).head?

/-- Lookup of the master folder by id within the master account. -/
def findMasterFolder (masterFolderId masterUserId : String) (db : DB) : Option FolderRow :=
  (db.folders.filter (fun f => f.id == masterFolderId && f.userId == masterUserId)).head?

/-- Lookup of the subscriber shadow folder by its reserved name. -/
def findShadow (userId masterFolderId : String) (db : DB) : Option FolderRow :=
  (db.folders.filter (fun f => f.userId == userId && f.name == shadowName masterFolderId)).head?

/-- The id the sync uses for the shadow folder: the existing one, or the
fresh id when it creates the folder. -/
def shadowId (userId masterFolderId ffid : String) (db : DB) : String :=
  match findShadow userId masterFolderId db with
  | some fr => fr.id
  | none => ffid

/-- The folders table after the ensure-shadow-folder step. -/
def shadowEnsure (userId masterFolderId ffid : String) (db : DB) : List FolderRow :=
  match findShadow userId masterFolderId db with
  | some _ => db.folders
  | none => db.folders ++ [{ id := ffid, userId := userId, name := shadowName masterFolderId }]

/-- getGlobalVideos: the master videos inside the master folder. -/
def masterVideosOf (masterUserId masterFolderId : String) (db : DB) : List VideoRow :=
  db.videos.filter (fun v => v.userId == masterUserId && v.folderId == some masterFolderId)

/-- The subscriber videos already inside the shadow folder. -/
def localVideosOf (userId folderId : String) (db : DB) : List VideoRow :=
  db.videos.filter (fun v => v.userId == userId && v.folderId == some folderId)

/-- The rows the sync loop inserts: one per still-missing master video,
copying url, ytId, platform and priority, with fresh unwatched progress
for the resolved target kids.  Fresh ids come from the supply g. -/
def syncRows (userId folderId : String) (targetKids : List KidRow)
    (g : Nat → String) : Nat → List VideoRow → List VideoRow
  | _, [] => []
  | i, mv :: rest =>
    { id := g i, userId := userId, url := mv.url, ytId := mv.ytId,
      platform := mv.platform, folderId := some folderId, priority := mv.priority,
      assigned := assignAll targetKids, progress := progressAll targetKids,
      totalViews := 0 } :: syncRows userId folderId targetKids g (i + 1) rest

/-- The body of syncSubscription once the subscription and the master
folder have been found: resolve the target kids, ensure the shadow
folder, and insert a copy of every master video whose ytId is not yet
present in the shadow folder. -/
def syncCore (userId masterFolderId masterUserId : String) (kidIds : List String)
    (ffid : String) (g : Nat → String) (db : DB) : DB :=
  { db with
    folders := shadowEnsure userId masterFolderId ffid db,
    videos := db.videos ++ syncRows userId (shadowId userId masterFolderId ffid db)
      (resolveTargetKids (some kidIds) (getKids userId db)) g 0
      ((masterVideosOf masterUserId masterFolderId db).filter (fun mv =>
        !(((localVideosOf userId (shadowId userId masterFolderId ffid db) db).map
            (fun v => v.ytId)).contains mv.ytId))) }

/-- syncSubscription: no-op without a subscription row or without the
master folder; otherwise ensure the shadow folder and insert the
missing master videos.  Fresh ids are parameters (ffid for the folder,
g for the video rows). -/
def syncSubscription (userId masterFolderId masterUserId ffid : String)
    (g : Nat → String) (db : DB) : DB :=
  match subLookup userId masterFolderId db with
  | none => db
  | some sub =>
    match findMasterFolder masterFolderId masterUserId db with
    | none => db
    | some _ => syncCore userId masterFolderId masterUserId sub.kidIds ffid g db

/-! ## Derived observations used in statements -/

/-- Number of stored voice recordings, an absent list counting as zero
(the shape the UI reads). -/
def recCount (p : VideoProgress) : Nat :=
  (p.voiceRecordings.getD []).length

/-- The accumulated watch time of a progress entry on a given day. -/
def dailyOf (t : String) (p : VideoProgress) : Int :=
  (alGet t (p.dailyWatchTime.getD [])).getD 0

/-- The empty store. -/
def emptyDb : DB := { kids := [], folders := [], videos := [], subs := [] }

/-! ## Concrete states for counterexamples and witnesses -/

/-- A kid whose deletion should reconcile the video maps. -/
def c2Db : DB :=
  { kids := [{ id := "k1", userId := "u1", name := "Ann", avatar := "child" }],
    folders := [],
    videos := [{ id := "v1", userId := "u1", url := "https://youtu.be/aaa", ytId := "aaa",
                 platform := Platform.youtube, folderId := none, priority := 5,
                 assigned := [("k1", true)],
                 progress := [("k1", { freshProgress with watched := true, watchedAt := some "2026-01-01", parentReviewed := some false })],
                 totalViews := 1 }],
    subs := [] }

/-- A legacy single recording awaiting migration. -/
def c3LegacyRec : VoiceRecording := { recordedAt := "t0", duration := 3, audioData := none }

/-- The recording submitted on the re-watch. -/
def c3NewRec : VoiceRecording := { recordedAt := "t1", duration := 2, audioData := none }

/-- A completed progress entry holding only the legacy single-recording
field, with an absent recordings list. -/
def c3Prog : VideoProgress :=
  { watched := true, watchedAt := some "t0", voiceRecording := some c3LegacyRec,
    voiceRecordings := none, parentReviewed := some true, lastPosition := none,
    videoDuration := none, dailyWatchTime := none }

/-- A store holding a video the kid k1 completed in the legacy format. -/
def c3Db : DB :=
  { kids := [], folders := [],
    videos := [{ id := "v1", userId := "u1", url := "https://youtu.be/bbb", ytId := "bbb",
                 platform := Platform.youtube, folderId := none, priority := 5,
                 assigned := [("k1", true)], progress := [("k1", c3Prog)], totalViews := 1 }],
    subs := [] }

/-- An owner catalog holding a TikTok video whose platform id is the
digit string 123. -/
def c5Db : DB :=
  { kids := [], folders := [],
    videos := [{ id := "v1", userId := "u1", url := "https://www.tiktok.com/@a/video/123",
                 ytId := "123", platform := Platform.tiktok, folderId := none, priority := 5,
                 assigned := [], progress := [], totalViews := 0 }],
    subs := [] }

/-- A video already at the view cap, with no progress for kid k9. -/
def w1Db : DB :=
  { kids := [], folders := [],
    videos := [{ id := "v1", userId := "u1", url := "https://youtu.be/aaa", ytId := "aaa",
                 platform := Platform.youtube, folderId := none, priority := 5,
                 assigned := [("k1", true)], progress := [], totalViews := 4 }],
    subs := [] }

/-- A well-formed recording used by several witnesses. -/
def wRec : VoiceRecording := { recordedAt := "t1", duration := 2, audioData := none }

/-- A completed, already-migrated progress entry for the re-watch witness. -/
def w3Prog : VideoProgress :=
  { watched := true, watchedAt := some "t0", voiceRecording := none,
    voiceRecordings := some [c3LegacyRec], parentReviewed := some true,
    lastPosition := none, videoDuration := none, dailyWatchTime := none }

/-- A store for the re-watch witness. -/
def w3Db : DB :=
  { kids := [], folders := [],
    videos := [{ id := "v1", userId := "u1", url := "https://youtu.be/ccc", ytId := "ccc",
                 platform := Platform.youtube, folderId := none, priority := 5,
                 assigned := [("k1", true)], progress := [("k1", w3Prog)], totalViews := 1 }],
    subs := [] }

/-- A progress entry with a known last position for the scrub witness. -/
def w8Prog : VideoProgress :=
  { freshProgress with lastPosition := some 10 }

/-- A store for the scrub-position witness. -/
def w8Db : DB :=
  { kids := [], folders := [],
    videos := [{ id := "v1", userId := "u1", url := "https://youtu.be/ddd", ytId := "ddd",
                 platform := Platform.youtube, folderId := none, priority := 5,
                 assigned := [("k1", true)], progress := [("k1", w8Prog)], totalViews := 0 }],
    subs := [] }

/-- A store with one plain folder for the rename witness. -/
def w6Db : DB :=
  { kids := [], folders := [{ id := "f1", userId := "u1", name := "Cars" }],
    videos := [], subs := [] }

/-- A store for the fresh-kid completion witness. -/
def w10Db : DB :=
  { kids := [], folders := [],
    videos := [{ id := "v1", userId := "u1", url := "https://youtu.be/eee", ytId := "eee",
                 platform := Platform.youtube, folderId := none, priority := 5,
                 assigned := [], progress := [], totalViews := 0 }],
    subs := [] }

/-- A subscriber with one subscription to a master folder holding one
video, for the sync-idempotence witness. -/
def w4Db : DB :=
  { kids := [{ id := "k1", userId := "u1", name := "Ann", avatar := "child" }],
    folders := [{ id := "mf1", userId := "mu", name := "Letters" }],
    videos := [{ id := "mv1", userId := "mu", url := "https://youtu.be/fff", ytId := "fff",
                 platform := Platform.youtube, folderId := some "mf1", priority := 5,
                 assigned := [], progress := [], totalViews := 0 }],
    subs := [{ id := "s1", userId := "u1", masterFolderId := "mf1", kidIds := [] }] }

/-! ## Helper lemmas -/

theorem alGet_alPut_self {α : Type} (k : String) (v : α) (l : List (String × α)) :
    alGet k (alPut k v l) = some v := by
  induction l with
  | nil => simp [alGet, alPut]
  | cons h t ih =>
    obtain ⟨k', v'⟩ := h
    by_cases hk : (k' == k) = true
    · simp [alGet, alPut, hk]
    · simp only [alPut, hk, if_false, Bool.false_eq_true]
      simp only [alGet, List.find?_cons, hk]
      exact ih

theorem head_filter_map_cond {α : Type} (l : List α) (q p : α → Bool) (g : α → α)
    (hqp : ∀ w, q w = true → p w = true) (hq : ∀ w, q (g w) = q w) :
    ((l.map (fun w => if p w then g w else w)).filter q).head? =
      ((l.filter q).head?).map g := by
  induction l with
  | nil => rfl
  | cons w ws ih =>
    have hfq : q (if p w then g w else w) = q w := by
      by_cases hp : p w = true
      · simp [hp, hq]
      · simp [hp]
    by_cases hqw : q w = true
    · have hpw : p w = true := hqp w hqw
      simp [List.filter_cons, hfq, hq, hqw, hpw]
    · simp only [List.map_cons, List.filter_cons, hfq, hqw, Bool.false_eq_true, if_false]
      exact ih

theorem getVideo_after_markUpdate (db : DB) (vid u : String)
    (P : List (String × VideoProgress)) (T : Int) :
    getVideo vid u { db with videos := db.videos.map (fun w =>
        if w.id == vid && w.userId == u then { w with progress := P, totalViews := T } else w) } =
      (getVideo vid u db).map (fun w => { w with progress := P, totalViews := T }) := by
  unfold getVideo
  exact head_filter_map_cond db.videos _ _ _ (fun w h => h) (fun w => rfl)

theorem getVideo_after_saveUpdate (db : DB) (vid u : String)
    (P : List (String × VideoProgress)) :
    getVideo vid u { db with videos := db.videos.map (fun w =>
        if w.id == vid then { w with progress := P } else w) } =
      (getVideo vid u db).map (fun w => { w with progress := P }) := by
  unfold getVideo
  refine head_filter_map_cond db.videos _ _ _ (fun w h => ?_) (fun w => rfl)
  exact (Bool.and_eq_true _ _ |>.mp h).1

/-! ## C1: the view cap rejects a fifth distinct first-time completion -/

/-- C1.  For every video in the owner scope and every kid who has not
previously completed it, when totalViews already equals the cap 4,
markVideoWatched answers the conflict error and leaves the whole store
unchanged: no recording is appended, no progress entry is created or
modified, and totalViews stays at 4. -/
theorem markVideoWatched_cap_rejects (db : DB) (vid kid u now : String)
    (rec : VoiceRecording) (v : VideoRow) (hv : getVideo vid u db = some v)
    (hnw : ((alGet kid v.progress).map (fun p => p.watched)).getD false = false)
    (hcap : v.totalViews = 4) :
    markVideoWatched vid kid rec u now db = (Except.error maxViewsError, db) := by
  unfold markVideoWatched
  rw [hv]
  simp [hnw, hcap, MAX_VIDEO_VIEWS]

/-- Witness for C1 at a concrete store. -/
theorem markVideoWatched_cap_rejects_witness :
    markVideoWatched "v1" "k9" wRec "u1" "t1" w1Db = (Except.error maxViewsError, w1Db) :=
  markVideoWatched_cap_rejects w1Db "v1" "k9" "u1" "t1" wRec
    { id := "v1", userId := "u1", url := "https://youtu.be/aaa", ytId := "aaa",
      platform := Platform.youtube, folderId := none, priority := 5,
      assigned := [("k1", true)], progress := [], totalViews := 4 }
    (by decide) (by decide) (by decide)

/-! ## C10: markVideoWatched accepts any kid id -/

/-- C10.  markVideoWatched validates nothing about the kid id: for any
kid-id string, one absent from the progress map (in particular a kid
that is not assigned, or not a kid of the owner at all), when the video
exists in the owner scope and the cap permits, the call succeeds,
writes a fresh completed progress entry holding exactly the one new
recording, and counts the call as a first completion by incrementing
totalViews. -/
theorem markVideoWatched_unknown_kid (db : DB) (vid kid u now : String)
    (rec : VoiceRecording) (v : VideoRow) (hv : getVideo vid u db = some v)
    (hp : alGet kid v.progress = none) (hcap : v.totalViews < 4) :
    ∃ v', (markVideoWatched vid kid rec u now db).1 = Except.ok v' ∧
      getVideo vid u (markVideoWatched vid kid rec u now db).2 = some v' ∧
      v'.totalViews = v.totalViews + 1 ∧
      alGet kid v'.progress = some
        { watched := true, watchedAt := some now, voiceRecording := none,
          voiceRecordings := some [rec], parentReviewed := some false,
          lastPosition := none, videoDuration := none, dailyWatchTime := none } := by
  have hcap' : decide (v.totalViews ≥ MAX_VIDEO_VIEWS) = false := by
    simp [MAX_VIDEO_VIEWS]
    omega
  have hres : markVideoWatched vid kid rec u now db =
      (Except.ok { v with
          progress := alPut kid
            { watched := true, watchedAt := some now, voiceRecording := none,
              voiceRecordings := some [rec], parentReviewed := some false,
              lastPosition := none, videoDuration := none, dailyWatchTime := none } v.progress,
          totalViews := v.totalViews + 1 },
        { db with videos := db.videos.map (fun w =>
            if w.id == vid && w.userId == u then
              { w with
                progress := alPut kid
                  { watched := true, watchedAt := some now, voiceRecording := none,
                    voiceRecordings := some [rec], parentReviewed := some false,
                    lastPosition := none, videoDuration := none, dailyWatchTime := none } v.progress,
                totalViews := v.totalViews + 1 }
            else w) }) := by
    unfold markVideoWatched
    rw [hv]
    simp [hp, hcap']
  refine ⟨{ v with
      progress := alPut kid
        { watched := true, watchedAt := some now, voiceRecording := none,
          voiceRecordings := some [rec], parentReviewed := some false,
          lastPosition := none, videoDuration := none, dailyWatchTime := none } v.progress,
      totalViews := v.totalViews + 1 }, ?_, ?_, ?_, ?_⟩
  · rw [hres]
  · rw [hres, getVideo_after_markUpdate, hv]
    rfl
  · rfl
  · exact alGet_alPut_self _ _ _

/-- Witness for C10 at a concrete store with an unknown kid id. -/
theorem markVideoWatched_unknown_kid_witness :
    ∃ v', (markVideoWatched "v1" "kid-b7Q2" wRec "u1" "t1" w10Db).1 = Except.ok v' ∧
      getVideo "v1" "u1" (markVideoWatched "v1" "kid-b7Q2" wRec "u1" "t1" w10Db).2 = some v' ∧
      v'.totalViews = 0 + 1 ∧
      alGet "kid-b7Q2" v'.progress = some
        { watched := true, watchedAt := some "t1", voiceRecording := none,
          voiceRecordings := some [wRec], parentReviewed := some false,
          lastPosition := none, videoDuration := none, dailyWatchTime := none } :=
  markVideoWatched_unknown_kid w10Db "v1" "kid-b7Q2" "u1" "t1" wRec
    { id := "v1", userId := "u1", url := "https://youtu.be/eee", ytId := "eee",
      platform := Platform.youtube, folderId := none, priority := 5,
      assigned := [], progress := [], totalViews := 0 }
    (by decide) (by decide) (by decide)

/-! ## C3: re-watch keeps the count, appends one recording -/

/-- Counterexample to C3 as stated.  In c3Db kid k1 already has
watched = true on video v1, yet the completed progress entry still
holds its recording in the legacy single-recording field and has no
recordings list.  A re-watch then migrates the legacy recording and
appends the new one, so the voiceRecordings length goes from 0 to 2,
not up by exactly one. -/
theorem markVideoWatched_rewatch_cex :
    c3Prog.watched = true ∧ recCount c3Prog = 0 ∧
    ((markVideoWatched "v1" "k1" c3NewRec "u1" "t1" c3Db).1.toOption.map
      (fun v' => (alGet "k1" v'.progress).map recCount)) = some (some 2) := by
  decide

/-- C3 amended.  For every video of the owner and every valid recording
(duration strictly positive), if the kid already has watched = true
with watchedAt set, and the progress entry has no unmigrated legacy
single recording (either the legacy field is empty or the recordings
list is already non-empty), then markVideoWatched succeeds, totalViews
does not increase, the voiceRecordings length increases by exactly one,
and watchedAt is unchanged.  (When an unmigrated legacy recording is
present with an empty list, the legacy recording is migrated in the
same call and the length increases by two instead — see the
counterexample.) -/
theorem markVideoWatched_rewatch_spec (db : DB) (vid kid u now : String)
    (rec : VoiceRecording) (v : VideoRow) (p : VideoProgress) (t : String)
    (hv : getVideo vid u db = some v) (hp : alGet kid v.progress = some p)
    (hw : p.watched = true) (ht : p.watchedAt = some t)
    (hleg : p.voiceRecording = none ∨ (p.voiceRecordings.getD []).isEmpty = false)
    (_hdur : 0 < rec.duration) :
    ∃ v' p', (markVideoWatched vid kid rec u now db).1 = Except.ok v' ∧
      v'.totalViews = v.totalViews ∧
      alGet kid v'.progress = some p' ∧
      p'.watchedAt = some t ∧
      recCount p' = recCount p + 1 := by
  have hres : (markVideoWatched vid kid rec u now db).1 = Except.ok { v with
      progress := alPut kid
        { watched := true, watchedAt := some t, voiceRecording := none,
          voiceRecordings := some ((p.voiceRecordings.getD []) ++ [rec]),
          parentReviewed := some false, lastPosition := none, videoDuration := none,
          dailyWatchTime := none } v.progress,
      totalViews := v.totalViews } := by
    unfold markVideoWatched
    rw [hv]
    rcases hleg with h0 | h0
    · simp [hp, hw, ht, h0]
    · cases hvr : p.voiceRecording with
      | none => simp [hp, hw, ht, hvr]
      | some l => simp [hp, hw, ht, hvr, h0]
  refine ⟨_, _, hres, rfl, alGet_alPut_self _ _ _, rfl, ?_⟩
  simp [recCount]

/-- Witness for the amended C3 at a concrete migrated store. -/
theorem markVideoWatched_rewatch_spec_witness :
    ∃ v' p', (markVideoWatched "v1" "k1" wRec "u1" "t9" w3Db).1 = Except.ok v' ∧
      v'.totalViews = 1 ∧
      alGet "k1" v'.progress = some p' ∧
      p'.watchedAt = some "t0" ∧
      recCount p' = recCount w3Prog + 1 := by
  have h := markVideoWatched_rewatch_spec w3Db "v1" "k1" "u1" "t9" wRec
    { id := "v1", userId := "u1", url := "https://youtu.be/ccc", ytId := "ccc",
      platform := Platform.youtube, folderId := none, priority := 5,
      assigned := [("k1", true)], progress := [("k1", w3Prog)], totalViews := 1 }
    w3Prog "t0" (by decide) (by decide) (by decide) (by decide)
    (Or.inl (by decide)) (by decide)
  exact h

/-! ## C8: scrub-position tracking -/

theorem savedDaily_dailyOf (p : VideoProgress) (pos : Int) (today : String) :
    dailyOf today (savedDaily p pos today) =
      (if 0 < max 0 (pos - p.lastPosition.getD 0) ∧ max 0 (pos - p.lastPosition.getD 0) < 30
       then dailyOf today p + max 0 (pos - p.lastPosition.getD 0)
       else dailyOf today p) := by
  unfold savedDaily
  by_cases hacc : 0 < max 0 (pos - p.lastPosition.getD 0) ∧ max 0 (pos - p.lastPosition.getD 0) < 30
  · rw [if_pos hacc, if_pos hacc]
    simp [dailyOf, alGet_alPut_self]
  · rw [if_neg hacc, if_neg hacc]

theorem savedDaily_videoDuration (p : VideoProgress) (pos : Int) (today : String) :
    (savedDaily p pos today).videoDuration = p.videoDuration := by
  unfold savedDaily
  split <;> rfl

theorem savedProg_lastPosition (p : VideoProgress) (pos : Int) (dur : Option Int)
    (today : String) : (savedProg p pos dur today).lastPosition = some pos := by
  cases dur with
  | none => rfl
  | some d => by_cases hd : 0 < d <;> simp [savedProg, hd]

theorem savedProg_dailyOf (p : VideoProgress) (pos : Int) (dur : Option Int)
    (today : String) :
    dailyOf today (savedProg p pos dur today) =
      (if 0 < max 0 (pos - p.lastPosition.getD 0) ∧ max 0 (pos - p.lastPosition.getD 0) < 30
       then dailyOf today p + max 0 (pos - p.lastPosition.getD 0)
       else dailyOf today p) := by
  have base := savedDaily_dailyOf p pos today
  cases dur with
  | none => exact base
  | some d =>
    by_cases hd : 0 < d
    · have hred : savedProg p pos (some d) today =
          { savedDaily p pos today with lastPosition := some pos, videoDuration := some d } := by
        simp [savedProg, hd]
      rw [hred]
      exact base
    · have hred : savedProg p pos (some d) today =
          { savedDaily p pos today with lastPosition := some pos } := by
        simp [savedProg, hd]
      rw [hred]
      exact base

theorem savedProg_videoDuration (p : VideoProgress) (pos : Int) (dur : Option Int)
    (today : String) :
    (savedProg p pos dur today).videoDuration =
      (match dur with
       | some d => if 0 < d then some d else p.videoDuration
       | none => p.videoDuration) := by
  have base := savedDaily_videoDuration p pos today
  cases dur with
  | none => exact base
  | some d =>
    by_cases hd : 0 < d
    · simp [savedProg, hd]
    · simp [savedProg, hd]
      exact base

/-- C8.  For a saveVideoPosition call on an existing (video, kid) pair
with a recorded previous position: with inc = max 0 (position - prev),
the today bucket grows by inc exactly when 0 < inc < 30 (rewinds and
jumps of 30 seconds or more accumulate nothing), lastPosition is always
set to the new position, and videoDuration is updated exactly when a
positive duration is supplied. -/
theorem saveVideoPosition_spec (db : DB) (vid kid u today : String) (pos prev : Int)
    (dur : Option Int) (v : VideoRow) (p : VideoProgress)
    (hv : getVideo vid u db = some v) (hp : alGet kid v.progress = some p)
    (hl : p.lastPosition = some prev) :
    (saveVideoPosition vid kid pos u dur today db).1 = true ∧
    ∃ v' p', getVideo vid u (saveVideoPosition vid kid pos u dur today db).2 = some v' ∧
      alGet kid v'.progress = some p' ∧
      p'.lastPosition = some pos ∧
      dailyOf today p' = (if 0 < max 0 (pos - prev) ∧ max 0 (pos - prev) < 30
        then dailyOf today p + max 0 (pos - prev) else dailyOf today p) ∧
      p'.videoDuration = (match dur with
        | some d => if 0 < d then some d else p.videoDuration
        | none => p.videoDuration) := by
  have hprev : p.lastPosition.getD 0 = prev := by rw [hl]; rfl
  have hres : saveVideoPosition vid kid pos u dur today db =
      (true, { db with videos := db.videos.map (fun w =>
        if w.id == vid then { w with progress := alPut kid (savedProg p pos dur today) v.progress } else w) }) := by
    unfold saveVideoPosition
    rw [hv]
    simp [hp]
  refine ⟨by rw [hres],
    { v with progress := alPut kid (savedProg p pos dur today) v.progress },
    savedProg p pos dur today, ?_, alGet_alPut_self _ _ _,
    savedProg_lastPosition p pos dur today, ?_, savedProg_videoDuration p pos dur today⟩
  · rw [hres, getVideo_after_saveUpdate, hv]
    rfl
  · rw [savedProg_dailyOf, hprev]

/-- Witness for C8: a 5-second advance accumulates 5 into the day
bucket and updates lastPosition. -/
theorem saveVideoPosition_spec_witness :
    (saveVideoPosition "v1" "k1" 15 "u1" none "2026-02-03" w8Db).1 = true ∧
    ∃ v' p', getVideo "v1" "u1" (saveVideoPosition "v1" "k1" 15 "u1" none "2026-02-03" w8Db).2 = some v' ∧
      alGet "k1" v'.progress = some p' ∧
      p'.lastPosition = some 15 ∧
      dailyOf "2026-02-03" p' = (if 0 < max 0 (15 - 10 : Int) ∧ max 0 (15 - 10 : Int) < 30
        then dailyOf "2026-02-03" w8Prog + max 0 (15 - 10 : Int) else dailyOf "2026-02-03" w8Prog) ∧
      p'.videoDuration = (match (none : Option Int) with
        | some d => if 0 < d then some d else w8Prog.videoDuration
        | none => w8Prog.videoDuration) :=
  saveVideoPosition_spec w8Db "v1" "k1" "u1" "2026-02-03" 15 10 none
    { id := "v1", userId := "u1", url := "https://youtu.be/ddd", ytId := "ddd",
      platform := Platform.youtube, folderId := none, priority := 5,
      assigned := [("k1", true)], progress := [("k1", w8Prog)], totalViews := 0 }
    w8Prog (by decide) (by decide) (by decide)

/-! ## C7: deletes of unknown ids report success -/

/-- C7 evaluated against the code.  When no record matches the
requested id in the owner scope, deleteKid, deleteVideo and
deleteFolder each still answer true (which the routes turn into an
HTTP success), and the store is unchanged: a silent no-op, not the
not-found error the specification requires.  This contradicts the dead
not-found branches the kid and video routes carry. -/
theorem delete_missing_id_reports_success (db : DB) (id u : String)
    (hk : ∀ k ∈ db.kids, ¬(k.id = id ∧ k.userId = u))
    (hv : ∀ v ∈ db.videos, ¬(v.id = id ∧ v.userId = u))
    (hf : ∀ f ∈ db.folders, ¬(f.id = id ∧ f.userId = u))
    (hvf : ∀ v ∈ db.videos, ¬(v.folderId = some id ∧ v.userId = u)) :
    deleteKid id u db = (true, db) ∧ deleteVideo id u db = (true, db) ∧
    deleteFolder id u db = (true, db) := by
  have hbool : ∀ (a b : String), ¬(a = id ∧ b = u) → (a == id && b == u) = false := by
    intro a b hab
    rcases not_and_or.mp hab with h | h
    · simp [beq_false_of_ne h]
    · simp [beq_false_of_ne h]
  refine ⟨?_, ?_, ?_⟩
  · unfold deleteKid
    have hkeep : db.kids.filter (fun k => !(k.id == id && k.userId == u)) = db.kids :=
      List.filter_eq_self.mpr (fun k hkm => by simp [hbool _ _ (hk k hkm)])
    rw [hkeep]
  · unfold deleteVideo
    have hkeep : db.videos.filter (fun v => !(v.id == id && v.userId == u)) = db.videos :=
      List.filter_eq_self.mpr (fun v hvm => by simp [hbool _ _ (hv v hvm)])
    rw [hkeep]
  · unfold deleteFolder
    have hboolf : ∀ v ∈ db.videos, (v.folderId == some id && v.userId == u) = false := by
      intro v hvm
      rcases not_and_or.mp (hvf v hvm) with h | h
      · simp [beq_false_of_ne h]
      · simp [beq_false_of_ne h]
    have hmap : db.videos.map (fun v =>
        if v.folderId == some id && v.userId == u then { v with folderId := none } else v) = db.videos := by
      have h2 : ∀ v ∈ db.videos,
          (if v.folderId == some id && v.userId == u then { v with folderId := none } else v) = v :=
        fun v hvm => by simp [hboolf v hvm]
      have := List.map_congr_left h2
      simpa using this
    have hkeep : db.folders.filter (fun f => !(f.id == id && f.userId == u)) = db.folders :=
      List.filter_eq_self.mpr (fun f hfm => by simp [hbool _ _ (hf f hfm)])
    rw [hmap, hkeep]

/-- Witness for C7 on the empty store. -/
theorem delete_missing_id_reports_success_witness :
    deleteKid "nosuch" "u1" emptyDb = (true, emptyDb) ∧
    deleteVideo "nosuch" "u1" emptyDb = (true, emptyDb) ∧
    deleteFolder "nosuch" "u1" emptyDb = (true, emptyDb) :=
  delete_missing_id_reports_success emptyDb "nosuch" "u1"
    (by simp [emptyDb]) (by simp [emptyDb]) (by simp [emptyDb]) (by simp [emptyDb])

/-! ## C6: rename accepts reserved shadow-folder names -/

/-- C6 evaluated against the code.  The public rename path performs no
reserved-name check: renaming any existing folder of the owner to the
reserved shadow name succeeds and writes that name, both in the
returned folder and in the store.  The specification requires this
rename to be rejected. -/
theorem updateFolder_reserved_name_accepted (db : DB) (id u mf : String) (f : FolderRow)
    (hf : getFolder id u db = some f) :
    (updateFolder id u (shadowName mf) db).1 = some { f with name := shadowName mf } ∧
    getFolder id u (updateFolder id u (shadowName mf) db).2 = some { f with name := shadowName mf } := by
  have hafter : getFolder id u { db with folders := db.folders.map (fun fr =>
      if fr.id == id && fr.userId == u then { fr with name := shadowName mf } else fr) } =
      (getFolder id u db).map (fun fr => { fr with name := shadowName mf }) := by
    unfold getFolder
    exact head_filter_map_cond db.folders _ _ _ (fun w h => h) (fun w => rfl)
  constructor
  · unfold updateFolder
    rw [hf]
  · unfold updateFolder
    rw [hf]
    rw [hafter, hf]
    rfl

/-- Witness for C6: an ordinary folder renamed to a reserved name. -/
theorem updateFolder_reserved_name_accepted_witness :
    (updateFolder "f1" "u1" (shadowName "m77") w6Db).1 =
      some { id := "f1", userId := "u1", name := shadowName "m77" } ∧
    getFolder "f1" "u1" (updateFolder "f1" "u1" (shadowName "m77") w6Db).2 =
      some { id := "f1", userId := "u1", name := shadowName "m77" } :=
  updateFolder_reserved_name_accepted w6Db "f1" "u1" "m77"
    { id := "f1", userId := "u1", name := "Cars" } (by decide)

/-! ## C2: deleteKid leaves the video maps untouched -/

/-- C2 evaluated against the code.  In c2Db the owner u1 has kid k1 and
one video carrying k1 in both its assigned and progress maps.  After
deleteKid the kid row is gone, yet the video still holds k1 in both
maps, and the videos table is bit-for-bit unchanged: deleteKid performs
no reconciliation of the video maps, contradicting the specified
behaviour. -/
theorem deleteKid_leaves_video_maps :
    (deleteKid "k1" "u1" c2Db).1 = true ∧
    getKids "u1" (deleteKid "k1" "u1" c2Db).2 = [] ∧
    ((deleteKid "k1" "u1" c2Db).2.videos.map
      (fun v => (alGet "k1" v.assigned, (alGet "k1" v.progress).map (fun p => p.watched)))) =
      [(some true, some true)] ∧
    (deleteKid "k1" "u1" c2Db).2.videos = c2Db.videos := by
  decide

/-! ## C5: video dedup compares the platform id only -/

/-- Counterexample to C5 as stated.  The owner u1 holds only a TikTok
video with platform id 123, so no video of the owner carries the pair
(youtube, 123); yet createVideo on a YouTube URL classifying to
(youtube, 123) is rejected with the duplicate conflict, because the
dedup check compares the stored platform id alone and ignores the
platform. -/
theorem createVideo_dedup_cex :
    getVideoInfo "https://youtu.be/123" = some (Platform.youtube, "123") ∧
    (c5Db.videos.map (fun v => (v.platform, v.ytId))) = [(Platform.tiktok, "123")] ∧
    (createVideo "https://youtu.be/123" none [] "u1" none none "v9" c5Db).1 =
      Except.error duplicateVideoError :=
  ⟨by decide, by decide, rfl⟩

/-- C5 amended.  For every URL that classifies, createVideo fails with
the duplicate conflict exactly when the owner already has a video with
the same platformVideoId, the platform not being compared; on success
the new video is appended with that id and no prior video of the owner
had it, so createVideo never produces two videos of one owner sharing a
platformVideoId (which implies the claimed pair uniqueness). -/
theorem createVideo_dedup_spec (db : DB) (url : String) (kidIds : Option (List String))
    (allKids : List KidRow) (u : String) (folderId : Option String) (priority : Option Int)
    (fresh : String) (plat : Platform) (vid : String)
    (hi : getVideoInfo url = some (plat, vid)) :
    ((createVideo url kidIds allKids u folderId priority fresh db).1 =
        Except.error duplicateVideoError ↔
      ∃ v ∈ db.videos, v.userId = u ∧ v.ytId = vid) ∧
    (∀ w, (createVideo url kidIds allKids u folderId priority fresh db).1 = Except.ok w →
      w.ytId = vid ∧ w.platform = plat ∧
      (createVideo url kidIds allKids u folderId priority fresh db).2.videos = db.videos ++ [w] ∧
      ∀ v ∈ db.videos, ¬(v.userId = u ∧ v.ytId = vid)) := by
  unfold createVideo
  rw [hi]
  by_cases hE : (db.videos.filter (fun v => v.ytId == vid && v.userId == u)).isEmpty = true
  · have hnil : db.videos.filter (fun v => v.ytId == vid && v.userId == u) = [] :=
      List.isEmpty_iff.mp hE
    have hnone : ∀ v ∈ db.videos, ¬(v.userId = u ∧ v.ytId = vid) := by
      intro v hvm hc
      have := List.filter_eq_nil_iff.mp hnil v hvm
      simp only [Bool.and_eq_true, beq_iff_eq] at this
      exact this ⟨hc.2, hc.1⟩
    constructor
    · simp only [hE, Bool.not_true, Bool.false_eq_true, if_false]
      constructor
      · intro habs
        exact absurd habs (by simp)
      · rintro ⟨v, hvm, hc⟩
        exact absurd hc (hnone v hvm)
    · intro w hw
      simp only [hE, Bool.not_true, Bool.false_eq_true, if_false] at hw ⊢
      injection hw with hrw
      subst hrw
      exact ⟨rfl, rfl, rfl, hnone⟩
  · have hmem : ∃ v ∈ db.videos, v.userId = u ∧ v.ytId = vid := by
      have hne : db.videos.filter (fun v => v.ytId == vid && v.userId == u) ≠ [] := by
        intro h0
        exact hE (by simp [h0])
      rcases List.exists_mem_of_ne_nil _ hne with ⟨v, hvm⟩
      have hvm' := List.mem_filter.mp hvm
      refine ⟨v, hvm'.1, ?_⟩
      have := hvm'.2
      simp only [Bool.and_eq_true, beq_iff_eq] at this
      exact ⟨this.2, this.1⟩
    have hEf : (db.videos.filter (fun v => v.ytId == vid && v.userId == u)).isEmpty = false := by
      simpa using hE
    constructor
    · simp only [hEf, Bool.not_false, if_true]
      exact ⟨fun _ => hmem, fun _ => trivial⟩
    · intro w hw
      simp only [hEf, Bool.not_false, if_true] at hw
      exact absurd hw (by simp)

/-- Witness for the amended C5: adding a fresh video succeeds and a
repeat of the same platform id conflicts. -/
theorem createVideo_dedup_spec_witness :
    ((createVideo "https://youtu.be/zz9" none [] "u1" none none "v2" c5Db).1 =
        Except.error duplicateVideoError ↔
      ∃ v ∈ c5Db.videos, v.userId = "u1" ∧ v.ytId = "zz9") ∧
    (∀ w, (createVideo "https://youtu.be/zz9" none [] "u1" none none "v2" c5Db).1 = Except.ok w →
      w.ytId = "zz9" ∧ w.platform = Platform.youtube ∧
      (createVideo "https://youtu.be/zz9" none [] "u1" none none "v2" c5Db).2.videos =
        c5Db.videos ++ [w] ∧
      ∀ v ∈ c5Db.videos, ¬(v.userId = "u1" ∧ v.ytId = "zz9")) :=
  createVideo_dedup_spec c5Db "https://youtu.be/zz9" none [] "u1" none none "v2"
    Platform.youtube "zz9" (by decide)

/-! ## C9: the URL classifier -/

theorem findIdxL_eq_none {α : Type} (p : α → Bool) (l : List α)
    (h : l.all (fun x => !(p x)) = true) : findIdxL p l = none := by
  induction l with
  | nil => rfl
  | cons a t ih =>
    simp only [List.all_cons, Bool.and_eq_true] at h
    have hpa : p a = false := by
      have := h.1
      simpa using this
    simp [findIdxL, hpa, ih h.2]

theorem getYouTubeIdParts_none_of_tiktok_host (u : UrlParts)
    (h : hostAfterWWW u.host = "tiktok.com" ∨ hostAfterWWW u.host = "m.tiktok.com" ∨
      hostAfterWWW u.host = "vm.tiktok.com") :
    getYouTubeIdParts u = none := by
  have c1 : (("tiktok.com" : String) == "youtu.be") = false := by decide
  have c2 : strContains "youtube.com" "tiktok.com" = false := by decide
  have c3 : (("m.tiktok.com" : String) == "youtu.be") = false := by decide
  have c4 : strContains "youtube.com" "m.tiktok.com" = false := by decide
  have c5 : (("vm.tiktok.com" : String) == "youtu.be") = false := by decide
  have c6 : strContains "youtube.com" "vm.tiktok.com" = false := by decide
  rcases h with h | h | h <;>
    simp [getYouTubeIdParts, h, c1, c2, c3, c4, c5, c6]

theorem getTikTokIdParts_none_of_other_host (u : UrlParts)
    (h1 : (hostAfterWWW u.host == "tiktok.com") = false)
    (h2 : (hostAfterWWW u.host == "m.tiktok.com") = false) :
    getTikTokIdParts u = none := by
  simp [getTikTokIdParts, h1, h2]

/-- Counterexample to C9 as stated.  The URL
https://tiktok.com/t/video/123 is a TikTok short link by the source
code own test isTikTokShortUrl (host tiktok.com, path starting with
/t/), yet the classifier does not yield none on it: the path contains a
video segment followed by digits, so it classifies to (tiktok, 123). -/
theorem classifier_shortlink_cex :
    isTikTokShortUrl "https://tiktok.com/t/video/123" = true ∧
    getVideoInfo "https://tiktok.com/t/video/123" = some (Platform.tiktok, "123") := by
  decide

/-- C9 amended.  The classifier is total by construction (every input
yields some pair or none; the source wraps URL parsing in try/catch).
YouTube rules are tried first and win; TikTok rules apply only when the
YouTube rules yield nothing; no URL matches both rule sets; every URL
whose normalised host is vm.tiktok.com yields none without any network
access; and a tiktok.com/t/ short link yields none provided no path
segment equals the literal segment video (otherwise the digits after
that segment are returned as a TikTok id - see the counterexample). -/
theorem classifier_spec :
    (∀ s i, getYouTubeId s = some i → getVideoInfo s = some (Platform.youtube, i)) ∧
    (∀ s i, getYouTubeId s = none → getTikTokId s = some i →
      getVideoInfo s = some (Platform.tiktok, i)) ∧
    (∀ s i j, getYouTubeId s = some i → getTikTokId s = some j → False) ∧
    (∀ s u, parseUrl (jsTrim s) = some u → hostAfterWWW u.host = "vm.tiktok.com" →
      getVideoInfo s = none) ∧
    (∀ s u rest, parseUrl (jsTrim s) = some u → hostAfterWWW u.host = "tiktok.com" →
      pathSegs u.pathname = "t" :: rest → rest.all (fun seg => !(seg == "video")) = true →
      getVideoInfo s = none) := by
  refine ⟨?_, ?_, ?_, ?_, ?_⟩
  · intro s i h
    unfold getVideoInfo
    rw [h]
  · intro s i hy ht
    unfold getVideoInfo
    rw [hy, ht]
  · intro s i j hy ht
    unfold getYouTubeId at hy
    unfold getTikTokId at ht
    cases hparse : parseUrl (jsTrim s) with
    | none =>
      rw [hparse] at ht
      exact absurd ht (by simp)
    | some u =>
      rw [hparse] at hy ht
      have hy2 : getYouTubeIdParts u = some i := hy
      have ht2 : getTikTokIdParts u = some j := ht
      cases hcond : (hostAfterWWW u.host == "tiktok.com" || hostAfterWWW u.host == "m.tiktok.com") with
      | false =>
        have h1 : (hostAfterWWW u.host == "tiktok.com") = false := by
          have := hcond
          simp only [Bool.or_eq_false_iff] at this
          exact this.1
        have h2 : (hostAfterWWW u.host == "m.tiktok.com") = false := by
          have := hcond
          simp only [Bool.or_eq_false_iff] at this
          exact this.2
        rw [getTikTokIdParts_none_of_other_host u h1 h2] at ht2
        exact absurd ht2 (by simp)
      | true =>
        have hhost : hostAfterWWW u.host = "tiktok.com" ∨ hostAfterWWW u.host = "m.tiktok.com" := by
          rcases (Bool.or_eq_true _ _).mp hcond with h | h
          · exact Or.inl (eq_of_beq h)
          · exact Or.inr (eq_of_beq h)
        have hyn : getYouTubeIdParts u = none := by
          rcases hhost with h | h
          · exact getYouTubeIdParts_none_of_tiktok_host u (Or.inl h)
          · exact getYouTubeIdParts_none_of_tiktok_host u (Or.inr (Or.inl h))
        rw [hyn] at hy2
        exact absurd hy2 (by simp)
  · intro s u hu he
    have hy : getYouTubeId s = none := by
      unfold getYouTubeId
      rw [hu]
      exact getYouTubeIdParts_none_of_tiktok_host u (Or.inr (Or.inr he))
    have ht : getTikTokId s = none := by
      unfold getTikTokId
      rw [hu]
      refine getTikTokIdParts_none_of_other_host u ?_ ?_ <;> rw [he] <;> decide
    unfold getVideoInfo
    rw [hy, ht]
  · intro s u rest hu he hseg hall
    have hy : getYouTubeId s = none := by
      unfold getYouTubeId
      rw [hu]
      exact getYouTubeIdParts_none_of_tiktok_host u (Or.inl he)
    have ht : getTikTokId s = none := by
      have hfi : findIdxL (fun seg => seg == "video") (pathSegs u.pathname) = none := by
        rw [hseg]
        have h1 : (("t" : String) == "video") = false := by decide
        simp [findIdxL, h1, findIdxL_eq_none _ rest hall]
      unfold getTikTokId
      rw [hu]
      show getTikTokIdParts u = none
      unfold getTikTokIdParts
      rw [he, hfi]
      rfl
    unfold getVideoInfo
    rw [hy, ht]

/-- Witness for the amended C9 at concrete URLs. -/
theorem classifier_spec_witness :
    getVideoInfo "https://youtu.be/abc123" = some (Platform.youtube, "abc123") ∧
    getVideoInfo "https://www.tiktok.com/@a/video/42" = some (Platform.tiktok, "42") ∧
    getVideoInfo "https://vm.tiktok.com/ZMabc" = none ∧
    getVideoInfo "https://tiktok.com/t/ZTxyz" = none := by
  refine ⟨?_, ?_, ?_, ?_⟩
  · exact classifier_spec.1 "https://youtu.be/abc123" "abc123" (by decide)
  · exact classifier_spec.2.1 "https://www.tiktok.com/@a/video/42" "42" (by decide) (by decide)
  · exact classifier_spec.2.2.2.1 "https://vm.tiktok.com/ZMabc"
      { host := "vm.tiktok.com", pathname := "/ZMabc", search := "" } (by decide) (by decide)
  · exact classifier_spec.2.2.2.2 "https://tiktok.com/t/ZTxyz"
      { host := "tiktok.com", pathname := "/t/ZTxyz", search := "" } ["ZTxyz"]
      (by decide) (by decide) (by decide) (by decide)

/-! ## C4: sync idempotence -/

theorem syncRows_mem_props (u fid : String) (tk : List KidRow) (g : Nat → String) :
    ∀ (i : Nat) (l : List VideoRow) (r : VideoRow), r ∈ syncRows u fid tk g i l →
      r.userId = u ∧ r.folderId = some fid := by
  intro i l
  induction l generalizing i with
  | nil =>
    intro r hr
    simp [syncRows] at hr
  | cons mv rest ih =>
    intro r hr
    simp only [syncRows, List.mem_cons] at hr
    rcases hr with h | h
    · subst h
      exact ⟨rfl, rfl⟩
    · exact ih (i + 1) r h

theorem syncRows_map_ytId (u fid : String) (tk : List KidRow) (g : Nat → String) :
    ∀ (i : Nat) (l : List VideoRow),
      (syncRows u fid tk g i l).map (fun r => r.ytId) = l.map (fun r => r.ytId) := by
  intro i l
  induction l generalizing i with
  | nil => rfl
  | cons mv rest ih => simp [syncRows, ih]

theorem findMasterFolder_after_syncCore (u mf mu : String) (ks : List String)
    (f : String) (g : Nat → String) (db : DB) (hneq : u ≠ mu) :
    findMasterFolder mf mu (syncCore u mf mu ks f g db) = findMasterFolder mf mu db := by
  have humu : (u == mu) = false := beq_false_of_ne hneq
  unfold findMasterFolder
  show ((shadowEnsure u mf f db).filter (fun fo => fo.id == mf && fo.userId == mu)).head? = _
  cases hsh : findShadow u mf db with
  | some fr =>
    unfold shadowEnsure
    rw [hsh]
  | none =>
    unfold shadowEnsure
    rw [hsh, List.filter_append]
    have h0 : (([{ id := f, userId := u, name := shadowName mf }] : List FolderRow).filter
        (fun fo => fo.id == mf && fo.userId == mu)) = [] := by
      simp [humu]
    rw [h0, List.append_nil]

theorem syncCore_stable (u mf mu : String) (ks ks2 : List String) (f1 f2 : String)
    (g1 g2 : Nat → String) (db : DB) (hneq : u ≠ mu) :
    syncCore u mf mu ks2 f2 g2 (syncCore u mf mu ks f1 g1 db) =
      syncCore u mf mu ks f1 g1 db := by
  have humu : (u == mu) = false := beq_false_of_ne hneq
  set tk := resolveTargetKids (some ks) (getKids u db) with htk
  set fid := shadowId u mf f1 db with hfid
  set M := masterVideosOf mu mf db with hM
  set ytIds := (localVideosOf u fid db).map (fun v => v.ytId) with hyt
  set toIns := M.filter (fun mv => !(ytIds.contains mv.ytId)) with hti
  set NR := syncRows u fid tk g1 0 toIns with hNR
  set db1 := syncCore u mf mu ks f1 g1 db with hdb1
  have hv1 : db1.videos = db.videos ++ NR := rfl
  have hf1 : db1.folders = shadowEnsure u mf f1 db := rfl
  have hNRprops : ∀ r ∈ NR, r.userId = u ∧ r.folderId = some fid := by
    rw [hNR]
    exact fun r hr => syncRows_mem_props u fid tk g1 0 toIns r hr
  obtain ⟨sf, hsf, hsfid⟩ :
      ∃ sf : FolderRow, findShadow u mf db1 = some sf ∧ sf.id = fid := by
    cases hsh : findShadow u mf db with
    | some fr =>
      refine ⟨fr, ?_, ?_⟩
      · unfold findShadow
        rw [hf1]
        unfold shadowEnsure
        rw [hsh]
        have hsh' := hsh
        unfold findShadow at hsh'
        exact hsh'
      · rw [hfid]
        unfold shadowId
        rw [hsh]
    | none =>
      refine ⟨{ id := f1, userId := u, name := shadowName mf }, ?_, ?_⟩
      · unfold findShadow
        rw [hf1]
        unfold shadowEnsure
        rw [hsh, List.filter_append]
        have hnil : db.folders.filter (fun fo => fo.userId == u && fo.name == shadowName mf) = [] := by
          have hsh' := hsh
          unfold findShadow at hsh'
          exact List.head?_eq_none_iff.mp hsh'
        rw [hnil]
        simp
      · rw [hfid]
        unfold shadowId
        rw [hsh]
  have hfid2 : shadowId u mf f2 db1 = fid := by
    unfold shadowId
    rw [hsf]
    exact hsfid
  have hens2 : shadowEnsure u mf f2 db1 = db1.folders := by
    unfold shadowEnsure
    rw [hsf]
  have hM1 : masterVideosOf mu mf db1 = M := by
    unfold masterVideosOf
    rw [hv1, List.filter_append]
    have h0 : NR.filter (fun v => v.userId == mu && v.folderId == some mf) = [] := by
      refine List.filter_eq_nil_iff.mpr (fun r hr => ?_)
      have hru := (hNRprops r hr).1
      simp [hru, humu]
    rw [h0, List.append_nil, hM]
    rfl
  have hkeep : NR.filter (fun v => v.userId == u && v.folderId == some fid) = NR := by
    refine List.filter_eq_self.mpr (fun r hr => ?_)
    obtain ⟨h1, h2⟩ := hNRprops r hr
    simp [h1, h2]
  have hloc : localVideosOf u fid db1 = localVideosOf u fid db ++ NR := by
    unfold localVideosOf
    rw [hv1, List.filter_append, hkeep]
  have hyt1 : (localVideosOf u fid db1).map (fun v => v.ytId) =
      ytIds ++ toIns.map (fun v => v.ytId) := by
    rw [hloc, List.map_append, hNR, syncRows_map_ytId u fid tk g1 0 toIns, hyt]
  have hfalse : ∀ mv : VideoRow, mv.ytId ∈ ytIds ++ toIns.map (fun v => v.ytId) →
      ¬((!((ytIds ++ toIns.map (fun v => v.ytId)).contains mv.ytId)) = true) := by
    intro mv hmem habs
    have h1 : ((ytIds ++ toIns.map (fun v => v.ytId)).contains mv.ytId) = true :=
      List.elem_eq_true_of_mem hmem
    rw [h1] at habs
    exact absurd habs (by simp)
  have htoIns2 : (masterVideosOf mu mf db1).filter (fun mv =>
      !(((localVideosOf u (shadowId u mf f2 db1) db1).map (fun v => v.ytId)).contains mv.ytId)) = [] := by
    rw [hfid2, hM1, hyt1]
    refine List.filter_eq_nil_iff.mpr (fun mv hmv => ?_)
    by_cases hc : (ytIds.contains mv.ytId) = true
    · have hmem : mv.ytId ∈ ytIds ++ toIns.map (fun v => v.ytId) :=
        List.mem_append_left _ (List.mem_of_elem_eq_true hc)
      exact hfalse mv hmem
    · have hc' : ytIds.contains mv.ytId = false := by
        cases h : ytIds.contains mv.ytId with
        | false => rfl
        | true => exact absurd h hc
      have hmv2 : mv ∈ toIns := by
        rw [hti]
        refine List.mem_filter.mpr ⟨?_, ?_⟩
        · rw [hM] at hmv
          exact hmv
        · show (!(ytIds.contains mv.ytId)) = true
          rw [hc']
          rfl
      have hmem : mv.ytId ∈ ytIds ++ toIns.map (fun v => v.ytId) :=
        List.mem_append_right _ (List.mem_map_of_mem _ hmv2)
      exact hfalse mv hmem
  show syncCore u mf mu ks2 f2 g2 db1 = db1
  unfold syncCore
  rw [htoIns2, hens2]
  have hempty : syncRows u (shadowId u mf f2 db1)
      (resolveTargetKids (some ks2) (getKids u db1)) g2 0 [] = ([] : List VideoRow) := rfl
  rw [hempty, List.append_nil]

/-- C4.  For every subscriber distinct from the master account, calling
syncSubscription twice in a row (with nothing else happening between
the calls) leaves the store of the second call exactly equal to the
store after the first: the second call creates no videos and no folder,
whatever fresh ids it would have used, so the shadow-folder contents
are stable and syncSubscription is idempotent. -/
theorem syncSubscription_idempotent (u mf mu f1 f2 : String) (g1 g2 : Nat → String)
    (db : DB) (hneq : u ≠ mu) :
    syncSubscription u mf mu f2 g2 (syncSubscription u mf mu f1 g1 db) =
      syncSubscription u mf mu f1 g1 db := by
  cases hsub : subLookup u mf db with
  | none =>
    have h1 : syncSubscription u mf mu f1 g1 db = db := by
      unfold syncSubscription
      rw [hsub]
    rw [h1]
    unfold syncSubscription
    rw [hsub]
  | some sub =>
    cases hmf : findMasterFolder mf mu db with
    | none =>
      have h1 : syncSubscription u mf mu f1 g1 db = db := by
        unfold syncSubscription
        rw [hsub, hmf]
      rw [h1]
      unfold syncSubscription
      rw [hsub, hmf]
    | some mfr =>
      have h1 : syncSubscription u mf mu f1 g1 db = syncCore u mf mu sub.kidIds f1 g1 db := by
        unfold syncSubscription
        rw [hsub, hmf]
      rw [h1]
      have hF1 : subLookup u mf (syncCore u mf mu sub.kidIds f1 g1 db) = some sub := hsub
      have hF3 : findMasterFolder mf mu (syncCore u mf mu sub.kidIds f1 g1 db) = some mfr := by
        rw [findMasterFolder_after_syncCore u mf mu sub.kidIds f1 g1 db hneq]
        exact hmf
      have h2 : syncSubscription u mf mu f2 g2 (syncCore u mf mu sub.kidIds f1 g1 db) =
          syncCore u mf mu sub.kidIds f2 g2 (syncCore u mf mu sub.kidIds f1 g1 db) := by
        unfold syncSubscription
        rw [hF1, hF3]
      rw [h2]
      exact syncCore_stable u mf mu sub.kidIds sub.kidIds f1 f2 g1 g2 db hneq

/-- Witness for C4 at a concrete subscriber store. -/
theorem syncSubscription_idempotent_witness :
    syncSubscription "u1" "mf1" "mu" "fid2" (fun n => "w" ++ toString n)
        (syncSubscription "u1" "mf1" "mu" "fid1" (fun n => "v" ++ toString n) w4Db) =
      syncSubscription "u1" "mf1" "mu" "fid1" (fun n => "v" ++ toString n) w4Db :=
  syncSubscription_idempotent "u1" "mf1" "mu" "fid1" "fid2"
    (fun n => "v" ++ toString n) (fun n => "w" ++ toString n) w4Db (by decide)

end KidsVideoHub
